import Mathlib

/-!
# Verification of the `risp` interpreter core

Shallow embedding of the `risp` crate (`src/lib.rs`, `src/env.rs`): the
expression data model, the reader (`tokenize`, `parse_atom`,
`read_from_tokens`, `parse`, `token_count`), the environment chain
(`RispEnv`), the recursive evaluator (`eval`, `eval_to_number`) and the
builtin procedures registered by `standard_env`.

Modelling conventions:

* Rust `f64` numbers are modelled as rationals (`Rat`).  Every finite
  double is a rational, and all arithmetic reached by the verified
  claims is on small integers, where `f64` arithmetic is exact.  The
  floating-point-only builtins (`cos`, `sin`, `tan`, `acos`, `asin`,
  `atan`, `log`, `log2`, `log10`, `sqrt`, `exp`, `abs`, `pow`) are
  outside this rational embedding and are not modelled; no verified
  claim mentions them, and no claim program looks any of them up.
* A Rust `panic` (from `.expect(..)` or out-of-bounds indexing) aborts
  the process; it is modelled by the `RResult.fatal` outcome, distinct
  from the recoverable `RResult.err` that models `Err(RispErr)`.
* Rust `HashMap` fields are modelled by association lists where insert
  prepends and lookup takes the first match — observationally the same
  insert/overwrite/lookup behaviour.
* The Rust evaluator mutates the innermost environment through
  `&mut RispEnv` (the `outer` link is an immutable borrow), so the model
  threads the innermost environment explicitly: evaluation returns the
  value together with the updated environment.
* The Rust recursion is unbounded (stack overflow on divergent
  programs); the model indexes recursion by explicit fuel.  Running out
  of fuel is reported as a `fatal` outcome, matching the only way the
  Rust code can fail to return.
-/

set_option maxHeartbeats 1000000

namespace Risp

/-- Expression type, translated from `enum RispExp` in `src/lib.rs`
(variants in source order; `Lambda` holds the boxed pair of parameter
list and body). -/
inductive RispExp : Type where
  | Bool (b : Bool)
  | Symbol (s : String)
  | Number (n : Rat)
  | List (v : List RispExp)
  | Lambda (params : RispExp) (body : RispExp)

/-- Error type, translated from `enum RispErr` in `src/lib.rs`. -/
inductive RispErr : Type where
  | Reason (s : String)
deriving DecidableEq

/-- Outcome of a fallible `risp` operation: `ok` models `Ok(..)`, `err`
models `Err(RispErr)`, and `fatal` models a Rust panic (a
process-terminating `.expect(..)` failure or out-of-bounds indexing),
as well as the fuel artifact of the embedding. -/
inductive RResult (α : Type) : Type where
  | ok (val : α)
  | err (e : RispErr)
  | fatal (msg : String)

mutual

/-- Structural comparison of expressions, translated from the derived
`PartialOrd` on `RispExp`: variants compare by declaration order
(`Bool < Symbol < Number < List < Lambda`), then by contents; strings
lexicographically, numbers numerically, vectors and pairs
lexicographically.  On the rational model the order is total, so Rust's
`partial_cmp` always returns `Some` and is modelled as `Ordering`. -/
def cmpExp : RispExp → RispExp → Ordering
  | .Bool a, .Bool b => compare a b
  | .Bool _, _ => .lt
  | _, .Bool _ => .gt
  | .Symbol a, .Symbol b => compare a b
  | .Symbol _, _ => .lt
  | _, .Symbol _ => .gt
  | .Number a, .Number b => compare a b
  | .Number _, _ => .lt
  | _, .Number _ => .gt
  | .List a, .List b => cmpExpList a b
  | .List _, _ => .lt
  | _, .List _ => .gt
  | .Lambda p1 b1, .Lambda p2 b2 => (cmpExp p1 p2).then (cmpExp b1 b2)

/-- Lexicographic comparison of expression vectors, as in Rust's derived
`PartialOrd` for `Vec<RispExp>`. -/
def cmpExpList : List RispExp → List RispExp → Ordering
  | [], [] => .eq
  | [], _ :: _ => .lt
  | _ :: _, [] => .gt
  | a :: l1, b :: l2 => (cmpExp a b).then (cmpExpList l1 l2)

end

/-- Structural equality of expressions, translated from the derived
`PartialEq` on `RispExp`; on the rational model it coincides with the
comparison being `Ordering.eq`. -/
def eqExp (a b : RispExp) : Bool :=
  cmpExp a b == Ordering.eq

mutual

/-- Token count of an expression, translated from `token_count` in
`src/lib.rs`: a `List` of children `c1..cn` counts `2 + Σ token_count ci`
(its own parens plus its children); every other expression counts 1. -/
def token_count : RispExp → Nat
  | .List v => 2 + token_count_list v
  | .Bool _ => 1
  | .Symbol _ => 1
  | .Number _ => 1
  | .Lambda _ _ => 1

/-- Sum of `token_count` over a vector of expressions
(`v.iter().map(token_count).sum()`). -/
def token_count_list : List RispExp → Nat
  | [] => 0
  | e :: rest => token_count e + token_count_list rest

end

/-- Character-level model of `expr.replace('(', " ( ").replace(')', " ) ")`
from `tokenize` in `src/lib.rs`: every parenthesis is surrounded by
spaces. -/
def replaceParens : List Char → List Char
  | [] => []
  | c :: rest =>
    if c = '(' then ' ' :: '(' :: ' ' :: replaceParens rest
    else if c = ')' then ' ' :: ')' :: ' ' :: replaceParens rest
    else c :: replaceParens rest

/-- Splitting on whitespace runs, modelling Rust's `split_whitespace`
(runs of whitespace separate tokens, empty pieces are dropped).  The
accumulator holds the current in-progress token reversed.  Rust uses
Unicode whitespace while `Char.isWhitespace` covers ASCII whitespace;
all claim inputs are ASCII. -/
def splitWsAux : List Char → List Char → List String
  | [], acc =>
    if acc = [] then [] else [String.mk acc.reverse]
  | c :: rest, acc =>
    if c.isWhitespace then
      if acc = [] then splitWsAux rest []
      else String.mk acc.reverse :: splitWsAux rest []
    else splitWsAux rest (c :: acc)

/-- Tokenizer, translated from `tokenize` in `src/lib.rs`: pad every
parenthesis with spaces, then split on whitespace runs. -/
def tokenize (expr : String) : List String :=
  splitWsAux (replaceParens expr.data) []

/-- Digits to a natural number, most significant first. -/
def digitsToNat : List Char → Nat
  | [] => 0
  | c :: rest => digitsToNat rest + c.toNat.sub ('0'.toNat) * 10 ^ rest.length

/-- Model of Rust's `str::parse::<f64>` on the plain decimal grammar
`sign? digits* ('.' digits*)?` with at least one digit: the forms the
claim inputs use.  The exotic `f64` forms (exponents, `inf`, `NaN`) are
outside the rational embedding and rejected here; no claim token uses
them.  A decimal fraction is represented exactly as a rational, whereas
`f64` would round; all claim literals are integers, exact either way. -/
def parseFloat (token : String) : Option Rat :=
  match token.data with
  | [] => none
  | cs =>
    let signed : Bool × List Char :=
      match cs with
      | '-' :: rest => (true, rest)
      | '+' :: rest => (false, rest)
      | _ => (false, cs)
    let intPart := signed.2.takeWhile Char.isDigit
    let rest1 := signed.2.dropWhile Char.isDigit
    match rest1 with
    | [] =>
      if intPart.isEmpty then none
      else
        let mag : Rat := (digitsToNat intPart : Rat)
        some (if signed.1 then -mag else mag)
    | '.' :: rest2 =>
      let fracPart := rest2.takeWhile Char.isDigit
      let rest3 := rest2.dropWhile Char.isDigit
      if rest3.isEmpty = false then none
      else if intPart.isEmpty && fracPart.isEmpty then none
      else
        let mag : Rat :=
          (digitsToNat intPart * 10 ^ fracPart.length + digitsToNat fracPart : Rat)
            / ((10 : Rat) ^ fracPart.length)
        some (if signed.1 then -mag else mag)
    | _ => none

/-- Atom parser, translated from `parse_atom` in `src/lib.rs`: `true` and
`false` are Booleans, a numeric literal is a Number, anything else is a
Symbol. -/
def parse_atom (token : String) : RispExp :=
  if token = "true" then .Bool true
  else if token = "false" then .Bool false
  else
    match parseFloat token with
    | some v => .Number v
    | none => .Symbol token

/-- One pass of the reader's `while rest[0] != ")"` loop from
`read_from_tokens` in `src/lib.rs`, parametrised by the reader `rft` used
for sub-expressions and by loop fuel (a fuel artifact: each iteration
consumes at least one token, so `rest.length + 1` iterations always
suffice).  Faithful panic behaviour: indexing an empty `rest` panics, an
`Err` from the sub-read panics through `.expect`, and `split_at` with an
oversized span panics. -/
def readLoopF (rft : List String → RResult RispExp) :
    Nat → List String → List RispExp → RResult (List RispExp)
  | 0, _, _ => .fatal "reader loop out of fuel"
  | lf + 1, rest, acc =>
    match rest with
    | [] => .fatal "index out of bounds"
    | r0 :: _ =>
      if r0 = ")" then .ok acc
      else
        match rft rest with
        | .ok next =>
          if token_count next ≤ rest.length then
            readLoopF rft lf (rest.drop (token_count next)) (acc ++ [next])
          else .fatal "split_at out of bounds"
        | .err _ => .fatal "failed to read from tokens"
        | .fatal m => .fatal m

/-- One layer of `read_from_tokens` from `src/lib.rs`, parametrised by the
reader used for nested forms: pop the first token (panicking on an empty
stream), read a parenthesised list via the loop, fail recoverably on a
leading close paren, and otherwise parse an atom. -/
def readStep (rft : List String → RResult RispExp) (tokens : List String) :
    RResult RispExp :=
  match tokens with
  | [] => .fatal "failed to pop from tokens"
  | t :: rest =>
    if t = "(" then
      match readLoopF rft (rest.length + 1) rest [] with
      | .ok lst => .ok (.List lst)
      | .err e => .err e
      | .fatal m => .fatal m
    else if t = ")" then .err (.Reason "unexpected `)`")
    else .ok (parse_atom t)

/-- Reader, translated from `read_from_tokens` in `src/lib.rs`, indexed by
fuel bounding the nesting depth (the Rust recursion is bounded only by
the call stack). -/
def read_from_tokens : Nat → List String → RResult RispExp
  | 0 => fun _ => .fatal "reader out of fuel"
  | f + 1 => readStep (read_from_tokens f)

/-- Parser, translated from `parse` in `src/lib.rs`:
`read_from_tokens(&tokenize(program))`.  The fuel `2 * tokens + 2`
strictly dominates the reader's recursion depth on the given token
stream, so the fuel artifact is never the reported outcome. -/
def parse (program : String) : RResult RispExp :=
  read_from_tokens (2 * (tokenize program).length + 2) (tokenize program)

/-- Identities of the builtin procedures modelled from `standard_env` in
`src/env.rs`.  In Rust the `funcs` map stores function pointers; the
model stores these tags and dispatches through `applyBuiltin`.  The
floating-point-only builtins are not modelled (see the module
docstring). -/
inductive Builtin : Type where
  | bIf
  | bLet
  | bFn
  | bAdd
  | bSubtract
  | bMultiply
  | bDivide
  | bEq
  | bNeq
  | bGt
  | bGte
  | bLt
  | bLte
deriving DecidableEq

/-- Environment chain, translated from `struct RispEnv` in `src/env.rs`:
a value map `data`, a procedure map `funcs`, and an optional outer link.
The Rust `outer` field is a non-owning borrow; here the chain is an
explicit nested value. -/
inductive RispEnv : Type where
  | mk (data : List (String × RispExp)) (funcs : List (String × Builtin))
      (outer : Option RispEnv)

/-- Value lookup, translated from `RispEnv::get`: current scope's data
map first, then delegate to the outer scope, `none` when the chain is
exhausted. -/
def RispEnv.get : RispEnv → String → Option RispExp
  | .mk d _ outer, s =>
    match List.lookup s d with
    | some v => some v
    | none =>
      match outer with
      | some o => RispEnv.get o s
      | none => none

/-- Procedure lookup, translated from `RispEnv::get_function`: same walk
over the procedure map. -/
def RispEnv.get_function : RispEnv → String → Option Builtin
  | .mk _ fs outer, s =>
    match List.lookup s fs with
    | some b => some b
    | none =>
      match outer with
      | some o => RispEnv.get_function o s
      | none => none

/-- Insertion into the innermost scope's data map
(`self.data.insert(..)` / `define_variable`); prepending models the
`HashMap` overwrite under first-match lookup. -/
def RispEnv.insertData : RispEnv → String → RispExp → RispEnv
  | .mk d fs outer, s, v => .mk ((s, v) :: d) fs outer

/-- Shorthand for the evaluator function type threaded through the
builtins: Rust's `eval` mutates the innermost environment in place, so
the model returns the updated environment with the value. -/
abbrev Evaluator : Type :=
  RispExp → RispEnv → RResult (RispExp × RispEnv)

/-- Numeric coercion helper, translated from `eval_to_number` in
`src/lib.rs`: evaluate, succeed on a Number, fail recoverably otherwise,
propagating the evaluator's own error. -/
def eval_to_number (ev : Evaluator) (x : RispExp) (env : RispEnv) :
    RResult (Rat × RispEnv) :=
  match ev x env with
  | .ok (.Number n, env') => .ok (n, env')
  | .ok _ => .err (.Reason "did not eval to a number")
  | .err e => .err e
  | .fatal m => .fatal m

/-- The summation loop of `risp_add`: each argument is coerced to a
number (any coercion failure is reported as the builtin's own
"not a number" error), accumulating the running total. -/
def addLoop (ev : Evaluator) : List RispExp → Rat → RispEnv →
    RResult (RispExp × RispEnv)
  | [], total, env => .ok (.Number total, env)
  | a :: rest, total, env =>
    match eval_to_number ev a env with
    | .ok (n, env') => addLoop ev rest (total + n) env'
    | .err _ => .err (.Reason "not a number")
    | .fatal m => .fatal m

/-- Builtin `+`, translated from `risp_add` in `src/env.rs`: variadic
sum with identity 0. -/
def risp_add (ev : Evaluator) (args : List RispExp) (env : RispEnv) :
    RResult (RispExp × RispEnv) :=
  addLoop ev args 0 env

/-- The right-hand summation loop of `risp_subtract`, accumulating
`sum_right`. -/
def subLoop (ev : Evaluator) : List RispExp → Rat → Rat → RispEnv →
    RResult (RispExp × RispEnv)
  | [], num1, sumRight, env => .ok (.Number (num1 - sumRight), env)
  | a :: rest, num1, sumRight, env =>
    match eval_to_number ev a env with
    | .ok (n, env') => subLoop ev rest num1 (sumRight + n) env'
    | .err _ => .err (.Reason "not a number")
    | .fatal m => .fatal m

/-- Builtin `-`, translated from `risp_subtract` in `src/env.rs`:
`split_first` panics on an empty argument list; otherwise the first
value minus the sum of the remaining values. -/
def risp_subtract (ev : Evaluator) (args : List RispExp) (env : RispEnv) :
    RResult (RispExp × RispEnv) :=
  match args with
  | [] => .fatal "`-` requires at least 2 arguments"
  | first :: rest =>
    match eval_to_number ev first env with
    | .ok (n1, env') => subLoop ev rest n1 0 env'
    | .err _ => .err (.Reason "not a number")
    | .fatal m => .fatal m

/-- The product loop of `risp_multiply`. -/
def mulLoop (ev : Evaluator) : List RispExp → Rat → RispEnv →
    RResult (RispExp × RispEnv)
  | [], total, env => .ok (.Number total, env)
  | a :: rest, total, env =>
    match eval_to_number ev a env with
    | .ok (n, env') => mulLoop ev rest (total * n) env'
    | .err _ => .err (.Reason "not a number")
    | .fatal m => .fatal m

/-- Builtin `*`, translated from `risp_multiply` in `src/env.rs`:
variadic product with identity 1. -/
def risp_multiply (ev : Evaluator) (args : List RispExp) (env : RispEnv) :
    RResult (RispExp × RispEnv) :=
  mulLoop ev args 1 env

/-- Builtin `/`, translated from `risp_divide` in `src/env.rs`: panics on
zero arguments, errs on more than two, evaluates numerator then
denominator, then panics indexing a missing denominator.  Division is
the exact rational one; Rust's `f64` division differs only at a zero
denominator (`inf`/`NaN`), which no claim reaches. -/
def risp_divide (ev : Evaluator) (args : List RispExp) (env : RispEnv) :
    RResult (RispExp × RispEnv) :=
  match args with
  | [] => .fatal "`/` requires at least 2 arguments"
  | first :: rest =>
    if rest.length > 1 then .err (.Reason "`/` takes exactly 2 arguments")
    else
      match eval_to_number ev first env with
      | .ok (num, env1) =>
        match rest with
        | [] => .fatal "index out of bounds"
        | d :: _ =>
          match eval_to_number ev d env1 with
          | .ok (den, env2) => .ok (.Number (num / den), env2)
          | .err _ => .err (.Reason "not a number")
          | .fatal m => .fatal m
      | .err _ => .err (.Reason "not a number")
      | .fatal m => .fatal m

/-- The comparison loop of `risp_eq`: `true` iff every remaining raw
argument is structurally equal to the first. -/
def eqLoop (left : RispExp) : List RispExp → Bool
  | [] => true
  | o :: rest => if eqExp left o then eqLoop left rest else false

/-- Builtin `=`, translated from `risp_eq` in `src/env.rs`: panics on an
empty argument list; compares the raw first argument against each
remaining raw argument, never evaluating and never touching the
environment. -/
def risp_eq (args : List RispExp) (env : RispEnv) :
    RResult (RispExp × RispEnv) :=
  match args with
  | [] => .fatal "`=` requires at least 2 arguments"
  | left :: others => .ok (.Bool (eqLoop left others), env)

/-- The comparison loop of `risp_neq`: `true` iff some remaining raw
argument is structurally unequal to the first. -/
def neqLoop (left : RispExp) : List RispExp → Bool
  | [] => false
  | o :: rest => if eqExp left o then neqLoop left rest else true

/-- Builtin `!=`, translated from `risp_neq` in `src/env.rs`. -/
def risp_neq (args : List RispExp) (env : RispEnv) :
    RResult (RispExp × RispEnv) :=
  match args with
  | [] => .fatal "`!=` requires at least 2 arguments"
  | left :: others => .ok (.Bool (neqLoop left others), env)

/-- The comparison loop of `risp_gt`: evaluate each remaining argument to
a number in turn (propagating its coercion error) and return `false` at
the first argument not strictly below the fixed `left` value; later
arguments are then never evaluated. -/
def gtLoop (ev : Evaluator) (left : Rat) : List RispExp → RispEnv →
    RResult (RispExp × RispEnv)
  | [], env => .ok (.Bool true, env)
  | o :: rest, env =>
    match eval_to_number ev o env with
    | .ok (n, env') =>
      if left ≤ n then .ok (.Bool false, env')
      else gtLoop ev left rest env'
    | .err e => .err e
    | .fatal m => .fatal m

/-- Builtin `>`, translated from `risp_gt` in `src/env.rs`: panics on an
empty argument list, evaluates the first argument to a number, then runs
the strict comparison loop against that fixed value. -/
def risp_gt (ev : Evaluator) (args : List RispExp) (env : RispEnv) :
    RResult (RispExp × RispEnv) :=
  match args with
  | [] => .fatal "`>` requires at least 2 arguments"
  | left :: others =>
    match eval_to_number ev left env with
    | .ok (l, env') => gtLoop ev l others env'
    | .err e => .err e
    | .fatal m => .fatal m

/-- The comparison loop of `risp_gte`: as `gtLoop` but returning `false`
only at a strictly larger argument. -/
def gteLoop (ev : Evaluator) (left : Rat) : List RispExp → RispEnv →
    RResult (RispExp × RispEnv)
  | [], env => .ok (.Bool true, env)
  | o :: rest, env =>
    match eval_to_number ev o env with
    | .ok (n, env') =>
      if left < n then .ok (.Bool false, env')
      else gteLoop ev left rest env'
    | .err e => .err e
    | .fatal m => .fatal m

/-- Builtin `>=`, translated from `risp_gte` in `src/env.rs`. -/
def risp_gte (ev : Evaluator) (args : List RispExp) (env : RispEnv) :
    RResult (RispExp × RispEnv) :=
  match args with
  | [] => .fatal "`>=` requires at least 2 arguments"
  | left :: others =>
    match eval_to_number ev left env with
    | .ok (l, env') => gteLoop ev l others env'
    | .err e => .err e
    | .fatal m => .fatal m

/-- The comparison loop of `risp_lt`: continue while the raw first
argument is structurally strictly below each raw remaining argument
(Rust's `left >= other` early `false` return). -/
def ltLoop (left : RispExp) : List RispExp → Bool
  | [] => true
  | o :: rest => if cmpExp left o = .lt then ltLoop left rest else false

/-- Builtin `<`, translated from `risp_lt` in `src/env.rs`: panics on an
empty argument list; compares raw expressions under the structural
order, never evaluating and never touching the environment. -/
def risp_lt (args : List RispExp) (env : RispEnv) :
    RResult (RispExp × RispEnv) :=
  match args with
  | [] => .fatal "`<` requires at least 2 arguments"
  | left :: others => .ok (.Bool (ltLoop left others), env)

/-- The comparison loop of `risp_lte` (Rust's `left > other` early
`false` return). -/
def lteLoop (left : RispExp) : List RispExp → Bool
  | [] => true
  | o :: rest => if cmpExp left o = .gt then false else lteLoop left rest

/-- Builtin `<=`, translated from `risp_lte` in `src/env.rs`. -/
def risp_lte (args : List RispExp) (env : RispEnv) :
    RResult (RispExp × RispEnv) :=
  match args with
  | [] => .fatal "`<=` requires at least 2 arguments"
  | left :: others => .ok (.Bool (lteLoop left others), env)

/-- Builtin `if`, translated from `risp_if` in `src/env.rs`: panics on an
empty argument list; an `Err` from evaluating the predicate panics
through `.expect`; a non-Boolean predicate is a recoverable error;
otherwise exactly one branch is evaluated (index 0 on `true`, index 1 on
`false`, panicking if that index is missing), the other branch and any
extra trailing arguments untouched. -/
def risp_if (ev : Evaluator) (args : List RispExp) (env : RispEnv) :
    RResult (RispExp × RispEnv) :=
  match args with
  | [] => .fatal "`if` requires at least 3 arguments"
  | pred :: alternatives =>
    match ev pred env with
    | .ok (p, env') =>
      match p with
      | .Bool true =>
        match alternatives with
        | a0 :: _ => ev a0 env'
        | [] => .fatal "index out of bounds"
      | .Bool false =>
        match alternatives with
        | _ :: a1 :: _ => ev a1 env'
        | _ => .fatal "index out of bounds"
      | _ => .err (.Reason "does not evaluate to a boolean")
    | .err _ => .fatal "failed to evaluate predicate"
    | .fatal m => .fatal m

/-- Builtin `let`, translated from `risp_let` in `src/env.rs`: panics on
an empty argument list; the first argument must be a literal Symbol
(recoverable error otherwise); indexing a missing second argument
panics; the second argument is evaluated and bound in the current
innermost scope, any further arguments are ignored. -/
def risp_let (ev : Evaluator) (args : List RispExp) (env : RispEnv) :
    RResult (RispExp × RispEnv) :=
  match args with
  | [] => .fatal "`let` requires at least 3 arguments"
  | sym :: rest =>
    match sym with
    | .Symbol s =>
      match rest with
      | [] => .fatal "index out of bounds"
      | e0 :: _ =>
        match ev e0 env with
        | .ok (v, env') => .ok (v, env'.insertData s v)
        | .err e => .err e
        | .fatal m => .fatal m
    | _ => .err (.Reason "does not evaluate to a symbol")

/-- Builtin `fn`, translated from `risp_lambda` in `src/env.rs`: panics
on an empty argument list; errs when more than one body expression is
given; indexing a missing body panics; otherwise returns a Lambda
holding the raw parameter-list expression and the body, with no
environment snapshot. -/
def risp_lambda (args : List RispExp) (env : RispEnv) :
    RResult (RispExp × RispEnv) :=
  match args with
  | [] => .fatal "`fn` requires 2 arguments"
  | params :: func =>
    if func.length > 1 then
      .err (.Reason "`fn` definition expected to only have 2 arguments")
    else
      match func with
      | f0 :: _ => .ok (.Lambda params f0, env)
      | [] => .fatal "index out of bounds"

/-- Dispatch of a builtin tag to its procedure, modelling the function
pointer stored in the `funcs` map being called as `f(rest, env)` with
the raw unevaluated arguments. -/
def applyBuiltin (ev : Evaluator) : Builtin → List RispExp → RispEnv →
    RResult (RispExp × RispEnv)
  | .bIf => risp_if ev
  | .bLet => risp_let ev
  | .bFn => fun args env => risp_lambda args env
  | .bAdd => risp_add ev
  | .bSubtract => risp_subtract ev
  | .bMultiply => risp_multiply ev
  | .bDivide => risp_divide ev
  | .bEq => fun args env => risp_eq args env
  | .bNeq => fun args env => risp_neq args env
  | .bGt => risp_gt ev
  | .bGte => risp_gte ev
  | .bLt => fun args env => risp_lt args env
  | .bLte => fun args env => risp_lte args env

/-- The parameter-binding loop of lambda application in `eval`
(`src/lib.rs`): each parameter must be a Symbol and is bound to its raw
argument expression, without evaluating it; `none` models the
"parameter RispExp didn't evaluate to symbol" error.  Bindings are
prepended, so a duplicated parameter resolves to its last binding,
as with `HashMap` overwrite. -/
def bindParams : List RispExp → List RispExp → List (String × RispExp) →
    Option (List (String × RispExp))
  | [], _, acc => some acc
  | _, [], acc => some acc
  | p :: ps, a :: rem, acc =>
    match p with
    | .Symbol s => bindParams ps rem ((s, a) :: acc)
    | _ => none

/-- One layer of the evaluator, translated from `eval` in `src/lib.rs`,
parametrised by the evaluator `ev` used for sub-expressions.  Booleans
and Numbers are themselves; a Symbol is looked up, an unresolved Symbol
is itself; an empty List panics through `split_first().expect(..)`;
a List's head must be a Symbol, which resolves first to a builtin
(invoked on the raw tail), then to a Lambda, which is applied by binding
raw arguments in a fresh child scope whose outer link is the caller's
live environment; a bare Lambda errs. -/
def evalStep (ev : Evaluator) (x : RispExp) (env : RispEnv) :
    RResult (RispExp × RispEnv) :=
  match x with
  | .Bool b => .ok (.Bool b, env)
  | .Symbol s =>
    match env.get s with
    | some e => .ok (e, env)
    | none => .ok (.Symbol s, env)
  | .Number n => .ok (.Number n, env)
  | .List v =>
    match v with
    | [] => .fatal "failed to split list"
    | first :: rest =>
      match first with
      | .Symbol p =>
        match env.get_function p with
        | some b => applyBuiltin ev b rest env
        | none =>
          match env.get p with
          | some (.Lambda params body) =>
            match params with
            | .List pars =>
              if rest.length = pars.length then
                match bindParams pars rest [] with
                | some bnds =>
                  match ev body (.mk bnds [] (some env)) with
                  | .ok (r, _) => .ok (r, env)
                  | .err e => .err e
                  | .fatal m => .fatal m
                | none =>
                  .err (.Reason "parameter RispExp didn't evaluate to symbol")
              else
                .err (.Reason
                  "length of passed args doesn't match expected parameters")
            | _ => .err (.Reason "lambda parameters must be a RispExp::List")
          | some _ => .err (.Reason "failed to find function or lambda")
          | none => .err (.Reason "failed to find function or lambda")
      | _ => .err (.Reason "not implemented")
  | .Lambda _ _ => .err (.Reason "Unexpected form")

/-- Evaluator, translated from `eval` in `src/lib.rs`, indexed by fuel
bounding the recursion depth (each nested evaluation — a builtin
re-entering `eval`, a lambda body, a numeric coercion — descends one
fuel level). -/
def eval : Nat → Evaluator
  | 0 => fun _ _ => .fatal "evaluator out of fuel"
  | f + 1 => evalStep (eval f)

/-- Projection of an evaluation outcome to its value, discarding the
final environment. -/
def resultValue : RResult (RispExp × RispEnv) → RResult RispExp
  | .ok (v, _) => .ok v
  | .err e => .err e
  | .fatal m => .fatal m

/-- Successive top-level evaluations on one session environment, as the
REPL loop and the crate's tests perform them: each expression is
evaluated with `eval` and the mutated environment feeds the next;
the last outcome is returned. -/
def evalSeq (fuel : Nat) : List RispExp → RispEnv →
    RResult (RispExp × RispEnv)
  | [], _ => .err (.Reason "empty program")
  | [e], env => eval fuel e env
  | e :: rest, env =>
    match eval fuel e env with
    | .ok (_, env') => evalSeq fuel rest env'
    | .err e2 => .err e2
    | .fatal m => .fatal m

/-- Statement helper: evaluate each expression to a number left to
right with `eval_to_number`, threading the environment, and collect the
values.  Used to phrase "arguments a1..an evaluate to numbers v1..vn"
in the claims. -/
def evalNumsSeq (ev : Evaluator) : List RispExp → RispEnv →
    RResult (List Rat × RispEnv)
  | [], env => .ok ([], env)
  | a :: rest, env =>
    match eval_to_number ev a env with
    | .ok (n, env') =>
      match evalNumsSeq ev rest env' with
      | .ok (ns, env2) => .ok (n :: ns, env2)
      | .err e => .err e
      | .fatal m => .fatal m
    | .err e => .err e
    | .fatal m => .fatal m

/-- The exact rational value of the `f64` constant
`std::f64::consts::PI` bound to `pi` by `standard_env`. -/
def piRat : Rat :=
  (884279719003555 : Rat) / (281474976710656 : Rat)

/-- Default top-level environment, translated from `standard_env` in
`src/env.rs`: binds the constant `pi`, and registers each builtin via
`define_procedure`, which binds the name to itself as a Symbol in the
data map and to the procedure in the funcs map.  Lists are in reverse
insertion order because insertion prepends.  The floating-point-only
builtins are not modelled (see the module docstring); no claim program
looks any of them up, and name lookup is unaffected for all other
keys. -/
def standard_env : RispEnv :=
  .mk
    [("<=", .Symbol "<="), ("<", .Symbol "<"), (">=", .Symbol ">="),
     (">", .Symbol ">"), ("!=", .Symbol "!="), ("=", .Symbol "="),
     ("/", .Symbol "/"), ("*", .Symbol "*"), ("-", .Symbol "-"),
     ("+", .Symbol "+"), ("fn", .Symbol "fn"), ("let", .Symbol "let"),
     ("if", .Symbol "if"), ("pi", .Number piRat)]
    [("<=", .bLte), ("<", .bLt), (">=", .bGte), (">", .bGt),
     ("!=", .bNeq), ("=", .bEq), ("/", .bDivide), ("*", .bMultiply),
     ("-", .bSubtract), ("+", .bAdd), ("fn", .bFn), ("let", .bLet),
     ("if", .bIf)]
    none

/-! ## Helper lemmas -/

/-- Every expression spans at least one token. -/
theorem token_count_pos (e : RispExp) : 1 ≤ token_count e := by
  cases e <;> simp [token_count]; omega

/-- `token_count_list` is the sum of `token_count` over the vector. -/
theorem token_count_list_eq_sum :
    ∀ (v : List RispExp), token_count_list v = (v.map token_count).sum := by
  intro v
  induction v with
  | nil => rfl
  | cons e rest ih => simp [token_count_list, ih]

/-- An atom never parses to a `List`, so it spans exactly one token. -/
theorem parse_atom_token_count (t : String) :
    token_count (parse_atom t) = 1 := by
  unfold parse_atom
  split
  · rfl
  · split
    · rfl
    · cases h : parseFloat t <;> simp [token_count]

/-- The `risp_lt` loop accepts exactly when every remaining raw argument
is structurally strictly above the first. -/
theorem ltLoop_eq_all (left : RispExp) :
    ∀ (others : List RispExp),
      ltLoop left others =
        others.all fun o => decide (cmpExp left o = Ordering.lt) := by
  intro others
  induction others with
  | nil => rfl
  | cons o rest ih =>
    simp only [ltLoop, List.all_cons, ih]
    by_cases h : cmpExp left o = Ordering.lt
    · simp [h]
    · simp [h]

/-- The `risp_lte` loop accepts exactly when no remaining raw argument
is structurally strictly below the first. -/
theorem lteLoop_eq_all (left : RispExp) :
    ∀ (others : List RispExp),
      lteLoop left others =
        others.all fun o => !decide (cmpExp left o = Ordering.gt) := by
  intro others
  induction others with
  | nil => rfl
  | cons o rest ih =>
    simp only [lteLoop, List.all_cons, ih]
    by_cases h : cmpExp left o = Ordering.gt
    · simp [h]
    · simp [h]

/-- The `risp_neq` loop is the pointwise complement of the `risp_eq`
loop. -/
theorem neqLoop_eq_not_eqLoop (left : RispExp) :
    ∀ (others : List RispExp), neqLoop left others = !eqLoop left others := by
  intro others
  induction others with
  | nil => rfl
  | cons o rest ih =>
    simp only [neqLoop, eqLoop]
    by_cases h : eqExp left o
    · simp [h, ih]
    · simp [h]

/-- Dissection of a successful `evalNumsSeq` on a nonempty list into its
head coercion and tail run. -/
theorem evalNumsSeq_cons_ok (ev : Evaluator) (a : RispExp)
    (rest : List RispExp) (env : RispEnv) (ns : List Rat) (envN : RispEnv)
    (h : evalNumsSeq ev (a :: rest) env = .ok (ns, envN)) :
    ∃ n env' ns', eval_to_number ev a env = .ok (n, env') ∧
      evalNumsSeq ev rest env' = .ok (ns', envN) ∧ ns = n :: ns' := by
  cases h1 : eval_to_number ev a env with
  | ok p =>
    obtain ⟨n, env'⟩ := p
    cases h2 : evalNumsSeq ev rest env' with
    | ok q =>
      obtain ⟨ns', env2⟩ := q
      simp only [evalNumsSeq, h1, h2, RResult.ok.injEq, Prod.mk.injEq] at h
      refine ⟨n, env', ns', rfl, ?_, h.1.symm⟩
      rw [h2, h.2]
    | err e => simp [evalNumsSeq, h1, h2] at h
    | fatal m => simp [evalNumsSeq, h1, h2] at h
  | err e => simp [evalNumsSeq, h1] at h
  | fatal m => simp [evalNumsSeq, h1] at h

/-- When every remaining argument evaluates to a number, the
`risp_subtract` loop returns the first value minus the accumulated and
summed rest, in the final environment. -/
theorem subLoop_spec (ev : Evaluator) :
    ∀ (rest : List RispExp) (env : RispEnv) (ns : List Rat) (envN : RispEnv)
      (n1 s : Rat),
      evalNumsSeq ev rest env = .ok (ns, envN) →
      subLoop ev rest n1 s env = .ok (.Number (n1 - (s + ns.sum)), envN) := by
  intro rest
  induction rest with
  | nil =>
    intro env ns envN n1 s h
    simp only [evalNumsSeq, RResult.ok.injEq, Prod.mk.injEq] at h
    obtain ⟨h1, h2⟩ := h
    subst h1; subst h2
    simp [subLoop]
  | cons a rest ih =>
    intro env ns envN n1 s h
    obtain ⟨n, env', ns', h1, h2, hns⟩ := evalNumsSeq_cons_ok ev a rest env ns envN h
    subst hns
    simp only [subLoop, h1]
    rw [ih env' ns' envN n1 (s + n) h2, List.sum_cons]
    have harith : s + n + ns'.sum = s + (n + ns'.sum) := by ring
    rw [harith]

/-- When every remaining argument evaluates to a number strictly below
the fixed left value, the `risp_gt` loop returns `true` in the final
environment. -/
theorem gtLoop_all_pass (ev : Evaluator) (l : Rat) :
    ∀ (rest : List RispExp) (env : RispEnv) (ns : List Rat) (envN : RispEnv),
      evalNumsSeq ev rest env = .ok (ns, envN) →
      (ns.all fun n => decide (n < l)) = true →
      gtLoop ev l rest env = .ok (.Bool true, envN) := by
  intro rest
  induction rest with
  | nil =>
    intro env ns envN h _
    simp only [evalNumsSeq, RResult.ok.injEq, Prod.mk.injEq] at h
    obtain ⟨h1, h2⟩ := h
    subst h1; subst h2
    rfl
  | cons a rest ih =>
    intro env ns envN h hall
    obtain ⟨n, env', ns', h1, h2, hns⟩ := evalNumsSeq_cons_ok ev a rest env ns envN h
    subst hns
    simp only [List.all_cons, Bool.and_eq_true, decide_eq_true_eq] at hall
    simp only [gtLoop, h1]
    rw [if_neg (not_le.mpr hall.1)]
    exact ih env' ns' envN h2 (by simpa using hall.2)

/-- When a prefix of the remaining arguments passes the strict check but
the next argument evaluates to a number at or above the fixed left
value, the `risp_gt` loop stops there with `false`, never evaluating the
arguments after it. -/
theorem gtLoop_violation (ev : Evaluator) (l : Rat) :
    ∀ (pre : List RispExp) (y : RispExp) (post : List RispExp)
      (env : RispEnv) (ns : List Rat) (env1 : RispEnv) (yv : Rat)
      (env2 : RispEnv),
      evalNumsSeq ev pre env = .ok (ns, env1) →
      (ns.all fun n => decide (n < l)) = true →
      eval_to_number ev y env1 = .ok (yv, env2) →
      l ≤ yv →
      gtLoop ev l (pre ++ y :: post) env = .ok (.Bool false, env2) := by
  intro pre
  induction pre with
  | nil =>
    intro y post env ns env1 yv env2 h _ hy hle
    simp only [evalNumsSeq, RResult.ok.injEq, Prod.mk.injEq] at h
    obtain ⟨_, h2⟩ := h
    subst h2
    simp only [List.nil_append, gtLoop, hy]
    rw [if_pos hle]
  | cons a pre ih =>
    intro y post env ns env1 yv env2 h hall hy hle
    obtain ⟨n, env', ns', h1, h2, hns⟩ := evalNumsSeq_cons_ok ev a pre env ns env1 h
    subst hns
    simp only [List.all_cons, Bool.and_eq_true, decide_eq_true_eq] at hall
    simp only [List.cons_append, gtLoop, h1]
    rw [if_neg (not_le.mpr hall.1)]
    exact ih y post env' ns' env1 yv env2 h2 (by simpa using hall.2) hy hle

/-- Non-strict analogue of `gtLoop_all_pass` for the `risp_gte` loop. -/
theorem gteLoop_all_pass (ev : Evaluator) (l : Rat) :
    ∀ (rest : List RispExp) (env : RispEnv) (ns : List Rat) (envN : RispEnv),
      evalNumsSeq ev rest env = .ok (ns, envN) →
      (ns.all fun n => decide (n ≤ l)) = true →
      gteLoop ev l rest env = .ok (.Bool true, envN) := by
  intro rest
  induction rest with
  | nil =>
    intro env ns envN h _
    simp only [evalNumsSeq, RResult.ok.injEq, Prod.mk.injEq] at h
    obtain ⟨h1, h2⟩ := h
    subst h1; subst h2
    rfl
  | cons a rest ih =>
    intro env ns envN h hall
    obtain ⟨n, env', ns', h1, h2, hns⟩ := evalNumsSeq_cons_ok ev a rest env ns envN h
    subst hns
    simp only [List.all_cons, Bool.and_eq_true, decide_eq_true_eq] at hall
    simp only [gteLoop, h1]
    rw [if_neg (not_lt.mpr hall.1)]
    exact ih env' ns' envN h2 (by simpa using hall.2)

/-- Non-strict analogue of `gtLoop_violation` for the `risp_gte` loop. -/
theorem gteLoop_violation (ev : Evaluator) (l : Rat) :
    ∀ (pre : List RispExp) (y : RispExp) (post : List RispExp)
      (env : RispEnv) (ns : List Rat) (env1 : RispEnv) (yv : Rat)
      (env2 : RispEnv),
      evalNumsSeq ev pre env = .ok (ns, env1) →
      (ns.all fun n => decide (n ≤ l)) = true →
      eval_to_number ev y env1 = .ok (yv, env2) →
      l < yv →
      gteLoop ev l (pre ++ y :: post) env = .ok (.Bool false, env2) := by
  intro pre
  induction pre with
  | nil =>
    intro y post env ns env1 yv env2 h _ hy hlt
    simp only [evalNumsSeq, RResult.ok.injEq, Prod.mk.injEq] at h
    obtain ⟨_, h2⟩ := h
    subst h2
    simp only [List.nil_append, gteLoop, hy]
    rw [if_pos hlt]
  | cons a pre ih =>
    intro y post env ns env1 yv env2 h hall hy hlt
    obtain ⟨n, env', ns', h1, h2, hns⟩ := evalNumsSeq_cons_ok ev a pre env ns env1 h
    subst hns
    simp only [List.all_cons, Bool.and_eq_true, decide_eq_true_eq] at hall
    simp only [List.cons_append, gteLoop, h1]
    rw [if_neg (not_lt.mpr hall.1)]
    exact ih y post env' ns' env1 yv env2 h2 (by simpa using hall.2) hy hlt

/-- Span invariant of the reader loop: a successful pass over `rest`
appends a block `es` of parsed children to the accumulator, inspects
only the first `token_count_list es + 1` tokens of `rest` (the children's
spans plus the closing paren it stops on), and rereads the same result
from any extension of that prefix under any loop fuel of at least
`token_count_list es + 1` — provided the sub-reader `rft` itself
satisfies the span invariant. -/
theorem readLoopF_span (rft : List String → RResult RispExp)
    (hrft : ∀ (toks : List String) (e : RispExp), rft toks = .ok e →
      token_count e ≤ toks.length ∧
      ∀ ext, rft (toks.take (token_count e) ++ ext) = .ok e) :
    ∀ (lf : Nat) (rest : List String) (acc lst : List RispExp),
      readLoopF rft lf rest acc = .ok lst →
      ∃ es, lst = acc ++ es ∧
        token_count_list es + 1 ≤ rest.length ∧
        ∀ (lf2 : Nat) (ext : List String), token_count_list es + 1 ≤ lf2 →
          readLoopF rft lf2 (rest.take (token_count_list es + 1) ++ ext) acc
            = .ok lst := by
  intro lf
  induction lf with
  | zero =>
    intro rest acc lst h
    exact absurd h (by simp [readLoopF])
  | succ lf ih =>
    intro rest acc lst h
    cases rest with
    | nil => exact absurd h (by simp [readLoopF])
    | cons r0 rrest =>
      by_cases h0 : r0 = ")"
      · subst h0
        have hself : readLoopF rft (lf + 1) ((")" : String) :: rrest) acc
            = .ok acc := by
          simp [readLoopF]
        rw [hself] at h
        have hacc : acc = lst := by injection h
        subst hacc
        refine ⟨[], by simp, by simp [token_count_list], ?_⟩
        intro lf2 ext hlf2
        obtain ⟨k, rfl⟩ : ∃ k, lf2 = k + 1 := ⟨lf2 - 1, by omega⟩
        simp [readLoopF, token_count_list]
      · cases hn : rft (r0 :: rrest) with
        | ok next =>
          by_cases hle : token_count next ≤ (r0 :: rrest).length
          · simp only [readLoopF, if_neg h0, hn, if_pos hle] at h
            obtain ⟨es', hes', hlen', hstab'⟩ :=
              ih ((r0 :: rrest).drop (token_count next)) (acc ++ [next]) lst h
            obtain ⟨hlen0, hps⟩ := hrft (r0 :: rrest) next hn
            obtain ⟨tc', htc⟩ : ∃ tc', token_count next = tc' + 1 :=
              ⟨token_count next - 1, by
                have := token_count_pos next; omega⟩
            have htc'le : tc' ≤ rrest.length := by
              rw [htc] at hle
              simpa using hle
            rw [htc, List.drop_succ_cons] at hlen' hstab'
            have hlend : (rrest.drop tc').length = rrest.length - tc' := by
              simp
            refine ⟨next :: es', by simpa using hes', ?_, ?_⟩
            · simp only [token_count_list, List.length_cons]
              omega
            · intro lf2 ext hlf2
              have hc' : token_count_list (next :: es') + 1
                  = token_count next + (token_count_list es' + 1) := by
                simp only [token_count_list]; omega
              rw [htc] at hc'
              obtain ⟨k, rfl⟩ : ∃ k, lf2 = k + 1 := ⟨lf2 - 1, by omega⟩
              have hmid := hps ((rrest.drop tc').take (token_count_list es' + 1)
                ++ ext)
              rw [htc, List.take_succ_cons] at hmid
              simp only [List.cons_append, List.append_assoc] at hmid
              have hA : (rrest.take tc').length = tc' :=
                List.length_take_of_le htc'le
              have hB : ((rrest.drop tc').take (token_count_list es' + 1)).length
                  = token_count_list es' + 1 := by
                apply List.length_take_of_le
                omega
              rw [hc']
              have hidx : tc' + 1 + (token_count_list es' + 1)
                  = (tc' + (token_count_list es' + 1)) + 1 := by omega
              rw [hidx, List.take_succ_cons, List.take_add]
              simp only [List.cons_append, List.append_assoc]
              have hlng : token_count next
                  ≤ (r0 :: (rrest.take tc' ++ ((rrest.drop tc').take
                      (token_count_list es' + 1) ++ ext))).length := by
                rw [htc]
                simp only [List.length_cons, List.length_append, hA, hB]
                omega
              have hdropg : (r0 :: (rrest.take tc' ++ ((rrest.drop tc').take
                      (token_count_list es' + 1) ++ ext))).drop (token_count next)
                  = (rrest.drop tc').take (token_count_list es' + 1) ++ ext := by
                rw [htc, List.drop_succ_cons]
                exact List.drop_left' hA
              simp only [readLoopF, if_neg h0, hmid, if_pos hlng, hdropg]
              exact hstab' k ext (by omega)
          · simp only [readLoopF, if_neg h0, hn] at h
            rw [if_neg (by simpa using hle)] at h
            exact absurd h (by simp)
        | err e0 => simp [readLoopF, if_neg h0, hn] at h
        | fatal m => simp [readLoopF, if_neg h0, hn] at h

/-- Span invariant of the reader: a successful read of `e` from a token
stream inspects only the first `token_count e` tokens, and rereads the
same `e` from that prefix extended arbitrarily. -/
theorem read_from_tokens_span :
    ∀ (f : Nat) (tokens : List String) (e : RispExp),
      read_from_tokens f tokens = .ok e →
      token_count e ≤ tokens.length ∧
      ∀ ext, read_from_tokens f (tokens.take (token_count e) ++ ext) = .ok e := by
  intro f
  induction f with
  | zero =>
    intro tokens e h
    exact absurd h (by simp [read_from_tokens])
  | succ f ih =>
    intro tokens e h
    simp only [read_from_tokens] at h ⊢
    cases tokens with
    | nil => exact absurd h (by simp [readStep])
    | cons t rest =>
      by_cases ht : t = "("
      · subst ht
        cases hl : readLoopF (read_from_tokens f) (rest.length + 1) rest [] with
        | ok lst =>
          have he : e = .List lst := by
            simp [readStep, hl] at h
            exact h.symm
          subst he
          obtain ⟨es, hes, hlen, hstab⟩ := readLoopF_span _ ih _ _ _ _ hl
          simp only [List.nil_append] at hes
          subst hes
          constructor
          · simp only [token_count, List.length_cons]
            omega
          · intro ext
            have h2c : 2 + token_count_list lst
                = (token_count_list lst + 1) + 1 := by omega
            simp only [token_count, h2c, List.take_succ_cons]
            have hlf2 : token_count_list lst + 1
                ≤ (rest.take (token_count_list lst + 1) ++ ext).length + 1 := by
              simp only [List.length_append]
              have := List.length_take_of_le (l := rest)
                (n := token_count_list lst + 1) (by omega)
              omega
            have hs := hstab ((rest.take (token_count_list lst + 1) ++ ext).length + 1)
              ext hlf2
            simp only [List.length_append, List.length_take] at hs
            simp [readStep, hs]
        | err e0 => simp [readStep, hl] at h
        | fatal m => simp [readStep, hl] at h
      · by_cases ht2 : t = ")"
        · subst ht2
          simp [readStep] at h
        · simp only [readStep, if_neg ht, if_neg ht2, RResult.ok.injEq] at h
          subst h
          constructor
          · simp [parse_atom_token_count]
          · intro ext
            simp [parse_atom_token_count, readStep, if_neg ht, if_neg ht2]

/-! ## Claim theorems -/

/-- Claim C1: lambda application is call-by-name and dynamically scoped —
applying a Lambda binds each parameter symbol to its raw argument
expression, unevaluated, in a fresh child environment whose outer link
is the caller's live environment (the Lambda carries no environment of
its own); consequently the session `(let x 10)`,
`(let addx (fn (y) (+ x y)))`, `(let x 99)`, `(addx 1)` evaluates the
call to Number 100. -/
theorem claim1_lambda_call_by_name_dynamic_scope :
    (∀ (f : Nat) (env : RispEnv) (p : String) (pars : List RispExp)
        (body : RispExp) (args : List RispExp)
        (bnds : List (String × RispExp)) (r : RispExp) (envX : RispEnv),
      env.get_function p = none →
      env.get p = some (.Lambda (.List pars) body) →
      args.length = pars.length →
      bindParams pars args [] = some bnds →
      eval f body (.mk bnds [] (some env)) = .ok (r, envX) →
      eval (f + 1) (.List (.Symbol p :: args)) env = .ok (r, env))
    ∧ resultValue (evalSeq 10
        [.List [.Symbol "let", .Symbol "x", .Number 10],
         .List [.Symbol "let", .Symbol "addx",
           .List [.Symbol "fn", .List [.Symbol "y"],
             .List [.Symbol "+", .Symbol "x", .Symbol "y"]]],
         .List [.Symbol "let", .Symbol "x", .Number 99],
         .List [.Symbol "addx", .Number 1]]
        standard_env) = .ok (.Number 100) := by
  constructor
  · intro f env p pars body args bnds r envX h1 h2 h3 h4 h5
    show evalStep (eval f) (.List (.Symbol p :: args)) env = .ok (r, env)
    simp only [evalStep, h1, h2]
    rw [if_pos h3]
    simp only [h4, h5]
  · with_unfolding_all rfl

/-- Claim C1 witness: applying the general lambda-application equation to
the identity lambda bound to `g`, called on the literal 7. -/
theorem claim1_witness :
    eval 2 (.List [.Symbol "g", .Number 7])
      (.mk [("g", .Lambda (.List [.Symbol "a"]) (.Symbol "a"))] [] none)
      = .ok (.Number 7,
        .mk [("g", .Lambda (.List [.Symbol "a"]) (.Symbol "a"))] [] none) :=
  claim1_lambda_call_by_name_dynamic_scope.1 1
    (.mk [("g", .Lambda (.List [.Symbol "a"]) (.Symbol "a"))] [] none)
    "g" [.Symbol "a"] (.Symbol "a") [.Number 7] [("a", .Number 7)]
    (.Number 7)
    (.mk [("a", .Number 7)] []
      (some (.mk [("g", .Lambda (.List [.Symbol "a"]) (.Symbol "a"))] [] none)))
    rfl rfl rfl rfl rfl

/-- Claim C2: `token_count` is 1 on every non-List expression and
`2 + Σ token_count child` on a List; and a successful
`read_from_tokens` consumed exactly `token_count e` tokens — it
inspected only that prefix, and rereading that prefix under any
extension returns the same expression. -/
theorem claim2_token_count_reader_span :
    (∀ (v : List RispExp),
      token_count (.List v) = 2 + (v.map token_count).sum)
    ∧ (∀ (b : Bool), token_count (.Bool b) = 1)
    ∧ (∀ (s : String), token_count (.Symbol s) = 1)
    ∧ (∀ (n : Rat), token_count (.Number n) = 1)
    ∧ (∀ (p b : RispExp), token_count (.Lambda p b) = 1)
    ∧ (∀ (f : Nat) (tokens : List String) (e : RispExp),
        read_from_tokens f tokens = .ok e →
        token_count e ≤ tokens.length ∧
        ∀ ext, read_from_tokens f (tokens.take (token_count e) ++ ext)
          = .ok e) := by
  refine ⟨?_, fun _ => rfl, fun _ => rfl, fun _ => rfl, fun _ _ => rfl,
    read_from_tokens_span⟩
  intro v
  simp [token_count, token_count_list_eq_sum]

/-- Claim C2 witness: the span invariant applied to reading `()` — the
empty List spans 2 tokens and rereads identically with junk appended. -/
theorem claim2_witness :
    token_count (RispExp.List []) ≤ (["(", ")"] : List String).length
    ∧ read_from_tokens 4 ((["(", ")"] : List String).take
        (token_count (RispExp.List [])) ++ ["junk"]) = .ok (.List []) := by
  have h := claim2_token_count_reader_span.2.2.2.2.2 4 ["(", ")"]
    (.List []) rfl
  exact ⟨h.1, h.2 ["junk"]⟩

/-- Claim C3: the builtin `if`, given at least 3 unevaluated arguments,
evaluates the predicate (recoverable error if the result is not a
Boolean), evaluates and returns exactly one branch — the first on true,
the second on false — leaving the other branch unevaluated and ignoring
extra trailing arguments; and
`(if (< 10 11 9) asdf (+ 1 (- 3 2)))` evaluates to Number 2 in the
standard environment even though `asdf` is undefined. -/
theorem claim3_if_short_circuit :
    (∀ (f : Nat) (pred b1 b2 : RispExp) (extra : List RispExp)
        (env env' : RispEnv),
      eval f pred env = .ok (.Bool true, env') →
      risp_if (eval f) (pred :: b1 :: b2 :: extra) env = eval f b1 env')
    ∧ (∀ (f : Nat) (pred b1 b2 : RispExp) (extra : List RispExp)
        (env env' : RispEnv),
      eval f pred env = .ok (.Bool false, env') →
      risp_if (eval f) (pred :: b1 :: b2 :: extra) env = eval f b2 env')
    ∧ (∀ (f : Nat) (pred b1 b2 : RispExp) (extra : List RispExp)
        (env env' : RispEnv) (v : RispExp),
      eval f pred env = .ok (v, env') → (∀ c, v ≠ .Bool c) →
      risp_if (eval f) (pred :: b1 :: b2 :: extra) env
        = .err (.Reason "does not evaluate to a boolean"))
    ∧ resultValue (eval 10
        (.List [.Symbol "if",
          .List [.Symbol "<", .Number 10, .Number 11, .Number 9],
          .Symbol "asdf",
          .List [.Symbol "+", .Number 1,
            .List [.Symbol "-", .Number 3, .Number 2]]])
        standard_env) = .ok (.Number 2)
    ∧ parse "(if (< 10 11 9) asdf (+ 1 (- 3 2)))"
        = .ok (.List [.Symbol "if",
            .List [.Symbol "<", .Number 10, .Number 11, .Number 9],
            .Symbol "asdf",
            .List [.Symbol "+", .Number 1,
              .List [.Symbol "-", .Number 3, .Number 2]]]) := by
  refine ⟨?_, ?_, ?_, by with_unfolding_all rfl, rfl⟩
  · intro f pred b1 b2 extra env env' h
    simp only [risp_if, h]
  · intro f pred b1 b2 extra env env' h
    simp only [risp_if, h]
  · intro f pred b1 b2 extra env env' v hv hnb
    cases v with
    | Bool c => exact absurd rfl (hnb c)
    | Symbol s => simp only [risp_if, hv]
    | Number n => simp only [risp_if, hv]
    | List l => simp only [risp_if, hv]
    | Lambda pp bb => simp only [risp_if, hv]

/-- Claim C3 witness: the true-branch equation applied to a literal
true predicate. -/
theorem claim3_witness :
    risp_if (eval 1) [.Bool true, .Number 1, .Number 2] (.mk [] [] none)
      = eval 1 (.Number 1) (.mk [] [] none) :=
  claim3_if_short_circuit.1 1 (.Bool true) (.Number 1) (.Number 2) []
    (.mk [] [] none) (.mk [] [] none) rfl

/-- Claim C4: the builtins `<` and `<=` never evaluate their arguments
(they take no evaluator at all) and never touch the environment — on a
nonempty argument list they return the structural variant-then-content
comparison of the raw first argument against each raw remaining
argument, in the unchanged environment; structural comparison agrees
with numeric ordering exactly on Number literals; and
`(< (+ 1 1) 3)` is Bool false (the raw List form compares above
Number 3) while `(< 2 3)` is Bool true. -/
theorem claim4_lt_lte_structural_unevaluated :
    (∀ (left : RispExp) (others : List RispExp) (env : RispEnv),
      risp_lt (left :: others) env
        = .ok (.Bool (others.all fun o =>
            decide (cmpExp left o = Ordering.lt)), env))
    ∧ (∀ (left : RispExp) (others : List RispExp) (env : RispEnv),
      risp_lte (left :: others) env
        = .ok (.Bool (others.all fun o =>
            !decide (cmpExp left o = Ordering.gt)), env))
    ∧ (∀ (a b : Rat), cmpExp (.Number a) (.Number b) = compare a b)
    ∧ eval 10 (.List [.Symbol "<",
        .List [.Symbol "+", .Number 1, .Number 1], .Number 3]) standard_env
        = .ok (.Bool false, standard_env)
    ∧ eval 10 (.List [.Symbol "<", .Number 2, .Number 3]) standard_env
        = .ok (.Bool true, standard_env) := by
  refine ⟨?_, ?_, fun a b => rfl, rfl, rfl⟩
  · intro left others env
    simp only [risp_lt, ltLoop_eq_all]
  · intro left others env
    simp only [risp_lte, lteLoop_eq_all]

/-- Claim C5 counterexample: `(> 5 10 asdf)` evaluates to Bool false in
the standard environment even though its third argument does not
evaluate to a Number — the claimed "evaluate every argument first,
failing with a type error if any is not a Number" behaviour does not
hold, because the comparison loop short-circuits. -/
theorem claim5_counterexample :
    resultValue (eval 10 (.List [.Symbol ">", .Number 5, .Number 10,
        .Symbol "asdf"]) standard_env) = .ok (.Bool false)
    ∧ eval_to_number (eval 9) (.Symbol "asdf") standard_env
        = .err (.Reason "did not eval to a number") :=
  ⟨rfl, rfl⟩

/-- Claim C5 (amended): `>` and `>=` evaluate their arguments to Numbers
left to right, comparing each against the fixed first value: if every
remaining argument evaluates strictly (resp. non-strictly) below the
first value, all arguments are evaluated and Bool true is returned; at
the first violation Bool false is returned immediately and the
remaining arguments are never evaluated. -/
theorem claim5_gt_gte_amended :
    (∀ (f : Nat) (left : RispExp) (rest : List RispExp) (env : RispEnv)
        (l : Rat) (ns : List Rat) (envN : RispEnv),
      evalNumsSeq (eval f) (left :: rest) env = .ok (l :: ns, envN) →
      (ns.all fun n => decide (n < l)) = true →
      risp_gt (eval f) (left :: rest) env = .ok (.Bool true, envN))
    ∧ (∀ (f : Nat) (left : RispExp) (rest : List RispExp) (env : RispEnv)
        (l : Rat) (ns : List Rat) (envN : RispEnv),
      evalNumsSeq (eval f) (left :: rest) env = .ok (l :: ns, envN) →
      (ns.all fun n => decide (n ≤ l)) = true →
      risp_gte (eval f) (left :: rest) env = .ok (.Bool true, envN))
    ∧ (∀ (f : Nat) (left : RispExp) (pre : List RispExp) (y : RispExp)
        (post : List RispExp) (env : RispEnv) (l : Rat) (ns : List Rat)
        (env1 : RispEnv) (yv : Rat) (env2 : RispEnv),
      evalNumsSeq (eval f) (left :: pre) env = .ok (l :: ns, env1) →
      (ns.all fun n => decide (n < l)) = true →
      eval_to_number (eval f) y env1 = .ok (yv, env2) →
      l ≤ yv →
      risp_gt (eval f) (left :: (pre ++ y :: post)) env
        = .ok (.Bool false, env2))
    ∧ (∀ (f : Nat) (left : RispExp) (pre : List RispExp) (y : RispExp)
        (post : List RispExp) (env : RispEnv) (l : Rat) (ns : List Rat)
        (env1 : RispEnv) (yv : Rat) (env2 : RispEnv),
      evalNumsSeq (eval f) (left :: pre) env = .ok (l :: ns, env1) →
      (ns.all fun n => decide (n ≤ l)) = true →
      eval_to_number (eval f) y env1 = .ok (yv, env2) →
      l < yv →
      risp_gte (eval f) (left :: (pre ++ y :: post)) env
        = .ok (.Bool false, env2)) := by
  refine ⟨?_, ?_, ?_, ?_⟩
  · intro f left rest env l ns envN h hall
    obtain ⟨n, env', ns', h1, h2, hns⟩ :=
      evalNumsSeq_cons_ok (eval f) left rest env (l :: ns) envN h
    injection hns with hl hns'
    subst hl; subst hns'
    simp only [risp_gt, h1]
    exact gtLoop_all_pass (eval f) l rest env' ns envN h2 hall
  · intro f left rest env l ns envN h hall
    obtain ⟨n, env', ns', h1, h2, hns⟩ :=
      evalNumsSeq_cons_ok (eval f) left rest env (l :: ns) envN h
    injection hns with hl hns'
    subst hl; subst hns'
    simp only [risp_gte, h1]
    exact gteLoop_all_pass (eval f) l rest env' ns envN h2 hall
  · intro f left pre y post env l ns env1 yv env2 h hall hy hle
    obtain ⟨n, env', ns', h1, h2, hns⟩ :=
      evalNumsSeq_cons_ok (eval f) left pre env (l :: ns) env1 h
    injection hns with hl hns'
    subst hl; subst hns'
    simp only [risp_gt, h1]
    exact gtLoop_violation (eval f) l pre y post env' ns env1 yv env2
      h2 hall hy hle
  · intro f left pre y post env l ns env1 yv env2 h hall hy hlt
    obtain ⟨n, env', ns', h1, h2, hns⟩ :=
      evalNumsSeq_cons_ok (eval f) left pre env (l :: ns) env1 h
    injection hns with hl hns'
    subst hl; subst hns'
    simp only [risp_gte, h1]
    exact gteLoop_violation (eval f) l pre y post env' ns env1 yv env2
      h2 hall hy hlt

/-- Claim C5 witness: the all-pass equation applied to `(> 10 5)` in an
empty environment. -/
theorem claim5_witness :
    risp_gt (eval 5) [.Number 10, .Number 5] (.mk [] [] none)
      = .ok (.Bool true, .mk [] [] none) :=
  claim5_gt_gte_amended.1 5 (.Number 10) [.Number 5] (.mk [] [] none)
    10 [5] (.mk [] [] none) rfl (by decide)

/-- Claim C6 counterexample: on an empty token stream `parse` panics
through `split_first().expect(..)` — a process abort, not a returned
error value as the claim states. -/
theorem claim6_counterexample :
    parse "" = .fatal "failed to pop from tokens" := rfl

/-- Claim C6 (amended): `parse` returns a recoverable ReaderError only
when the token stream begins with `)`; an empty token stream panics in
`split_first().expect(..)`, and unbalanced streams such as `(` and `(()`
panic indexing past the end of the stream — process aborts, not
returned errors. -/
theorem claim6_parse_failure_modes_amended :
    (∀ (s : String), tokenize s = [] →
      parse s = .fatal "failed to pop from tokens")
    ∧ (∀ (s : String) (ts : List String), tokenize s = ")" :: ts →
      parse s = .err (.Reason "unexpected `)`"))
    ∧ parse "(" = .fatal "index out of bounds"
    ∧ parse "(()" = .fatal "index out of bounds" := by
  refine ⟨?_, ?_, rfl, rfl⟩
  · intro s h
    unfold parse
    rw [h]
    rfl
  · intro s ts h
    unfold parse
    rw [h]
    obtain ⟨k, hk⟩ : ∃ k, 2 * ((")" :: ts) : List String).length + 2 = k + 1 :=
      ⟨2 * ((")" :: ts) : List String).length + 1, by omega⟩
    rw [hk]
    rfl

/-- Claim C6 witness: the leading-close-paren equation applied to the
program `)`. -/
theorem claim6_witness :
    parse ")" = .err (.Reason "unexpected `)`") :=
  claim6_parse_failure_modes_amended.2.1 ")" [] rfl

/-- Claim C7 (amended): evaluating an empty List panics through
`split_first().expect("failed to split list")` — a process abort, not a
recoverable typed error returned through the evaluator's `Result`. -/
theorem claim7_empty_list_eval_panics_amended :
    ∀ (f : Nat) (env : RispEnv),
      eval (f + 1) (.List []) env = .fatal "failed to split list" := by
  intro f env
  rfl

/-- Claim C7 counterexample: the empty List aborts in the standard
environment instead of producing the recoverable ArityError-class value
the claim requires. -/
theorem claim7_counterexample :
    eval 1 (.List []) standard_env = .fatal "failed to split list" := rfl

/-- Claim C8: evaluating a Symbol returns the bound value unchanged when
the environment chain resolves it, and returns the Symbol itself — a
legal value, not an error — when the chain does not. -/
theorem claim8_symbol_lookup :
    (∀ (f : Nat) (s : String) (env : RispEnv) (v : RispExp),
      env.get s = some v → eval (f + 1) (.Symbol s) env = .ok (v, env))
    ∧ (∀ (f : Nat) (s : String) (env : RispEnv),
      env.get s = none →
      eval (f + 1) (.Symbol s) env = .ok (.Symbol s, env)) := by
  constructor
  · intro f s env v h
    show evalStep (eval f) (.Symbol s) env = .ok (v, env)
    simp only [evalStep, h]
  · intro f s env h
    show evalStep (eval f) (.Symbol s) env = .ok (.Symbol s, env)
    simp only [evalStep, h]

/-- Claim C8 witness: `pi` resolves to its bound Number in the standard
environment; the undefined `asdf` evaluates to itself. -/
theorem claim8_witness :
    eval 10 (.Symbol "pi") standard_env = .ok (.Number piRat, standard_env)
    ∧ eval 10 (.Symbol "asdf") standard_env
      = .ok (.Symbol "asdf", standard_env) :=
  ⟨claim8_symbol_lookup.1 9 "pi" standard_env (.Number piRat) rfl,
   claim8_symbol_lookup.2 9 "asdf" standard_env rfl⟩

/-- Claim C9 counterexample: `(- 5)` succeeds with Number 5 in the
standard environment — a single argument is not the arity-class failure
the claim states (only zero arguments aborts). -/
theorem claim9_counterexample :
    eval 10 (.List [.Symbol "-", .Number 5]) standard_env
      = .ok (.Number 5, standard_env) := by
  with_unfolding_all rfl

/-- Claim C9 (amended): `-` with zero arguments is a process-aborting
arity failure; with one or more arguments evaluating to numbers
v1..vn it returns Number(v1 − (v2 + … + vn)) — in particular a single
argument returns Number(v1); and `(- 10 (- 8 3) 3 1 -12)` evaluates to
Number 13 in the standard environment. -/
theorem claim9_subtract_amended :
    (∀ (ev : Evaluator) (env : RispEnv),
      risp_subtract ev [] env = .fatal "`-` requires at least 2 arguments")
    ∧ (∀ (f : Nat) (first : RispExp) (rest : List RispExp) (env : RispEnv)
        (v1 : Rat) (env1 : RispEnv) (ns : List Rat) (envN : RispEnv),
      eval_to_number (eval f) first env = .ok (v1, env1) →
      evalNumsSeq (eval f) rest env1 = .ok (ns, envN) →
      risp_subtract (eval f) (first :: rest) env
        = .ok (.Number (v1 - ns.sum), envN))
    ∧ resultValue (eval 10
        (.List [.Symbol "-", .Number 10,
          .List [.Symbol "-", .Number 8, .Number 3], .Number 3, .Number 1,
          .Number (-12)]) standard_env) = .ok (.Number 13) := by
  refine ⟨fun _ _ => rfl, ?_, by with_unfolding_all rfl⟩
  intro f first rest env v1 env1 ns envN h1 h2
  simp only [risp_subtract, h1]
  simpa using subLoop_spec (eval f) rest env1 ns envN v1 0 h2

/-- Claim C9 witness: the general subtraction equation applied to
`(- 7 2)` in an empty environment. -/
theorem claim9_witness :
    risp_subtract (eval 5) [.Number 7, .Number 2] (.mk [] [] none)
      = .ok (.Number (7 - ([2] : List Rat).sum), .mk [] [] none) :=
  claim9_subtract_amended.2.1 5 (.Number 7) [.Number 2] (.mk [] [] none)
    7 (.mk [] [] none) [2] (.mk [] [] none) rfl rfl

/-- Claim C10: `=` and `!=` are exact pointwise complements — on every
nonempty raw argument list and every environment both succeed without
evaluating anything (neither takes an evaluator) and without touching
the environment, and `!=` returns the Boolean negation of what `=`
returns. -/
theorem claim10_eq_neq_complement :
    ∀ (left : RispExp) (others : List RispExp) (env : RispEnv),
      risp_eq (left :: others) env = .ok (.Bool (eqLoop left others), env)
      ∧ risp_neq (left :: others) env
        = .ok (.Bool (!eqLoop left others), env) := by
  intro left others env
  exact ⟨rfl, by simp only [risp_neq, neqLoop_eq_not_eqLoop]⟩

end Risp
